import Mathlib

/-
Shallow embedding of the matchmaking sweep engine implemented in
src/backend/matching-service/workers/matchWorker.ts.

Modelling conventions:
- Timestamps and durations are Int (JS numbers used only via parseInt,
  subtraction and comparisons in the source).
- The Redis sorted set matching_queue is modelled by its membership,
  a Finset String of user keys (zRank is a presence test, zRem a removal).
- The per-key attribute hash (hGetAll) is modelled by a lookup function
  String -> Option UserData; an absent hash is none.
- The fallible external collaborators of handleMatch (Mongo saves, stream
  append) are modelled by an environment of Except-returning functions.
- Date.now is passed in as an explicit now argument: the sweep captures
  one now for the tick and getRelaxationLevel receives the clock value
  it reads.
- The configuration constants are env-configurable in the source, so the
  functions take them as explicit parameters; the defaults from the
  source are recorded below.
-/

namespace MatchWorker

/-- Default sweep period from the source (ms). -/
def MATCHING_INTERVAL : Int := 3000

/-- Default relaxation unit from the source (ms). -/
def RELAXATION_INTERVAL : Int := 10000

/-- Default eviction bound from the source (ms). -/
def MATCH_TIMEOUT : Int := 30000

/-- The attribute record stored under a user key (the hash read by hGetAll). -/
structure UserData where
  userId : String
  socketId : String
  category : String
  difficulty : String
  requestedAt : Int
deriving DecidableEq, Repr

/-- A pair of matching criteria as returned by getRelaxedCriteria. -/
structure Criteria where
  category : String
  difficulty : String
deriving DecidableEq, Repr

/-- A snapshot element: a queue key joined to its attribute record. -/
structure QueueEntry where
  userKey : String
  userData : UserData
deriving DecidableEq, Repr

/-- getRelaxationLevel from the source: level from elapsed wait time. -/
def getRelaxationLevel (relaxationInterval now : Int) (userData : UserData) : Int :=
  let elapsedTime := now - userData.requestedAt
  if elapsedTime ≤ relaxationInterval then 0
  else if elapsedTime ≤ relaxationInterval * 2 then 1
  else 2

/-- getRelaxedCriteria from the source: switch on the relaxation level,
with a default branch returning the own criteria unchanged. -/
def getRelaxedCriteria (relaxationLevel : Int) (userData : UserData) : Criteria :=
  if relaxationLevel = 0 then ⟨userData.category, userData.difficulty⟩
  else if relaxationLevel = 1 then ⟨userData.category, "Any"⟩
  else if relaxationLevel = 2 then ⟨"Any", userData.difficulty⟩
  else ⟨userData.category, userData.difficulty⟩

/-- isCriteriaSatisfied from the source. -/
def isCriteriaSatisfied (user : UserData) (relaxedCriteria : Criteria) : Bool :=
  (relaxedCriteria.category == "Any" || user.category == relaxedCriteria.category) &&
  (relaxedCriteria.difficulty == "Any" || user.difficulty == relaxedCriteria.difficulty)

/-- The first loop of canUsersMatch: starting from satisfied = false, OR in
isCriteriaSatisfied of user2 against the criteria of user1 relaxed to every
sub-level i from 0 through lvl inclusive. -/
def dirSweep (user1 user2 : UserData) (lvl : Nat) : Bool :=
  (List.range (lvl + 1)).foldl
    (fun satisfied (i : Nat) =>
      satisfied || isCriteriaSatisfied user2 (getRelaxedCriteria (i : Int) user1))
    false

/-- canUsersMatch from the source: guard each level to 0..2 (returning false
outside), sweep the sub-levels of user1, and for user2 loop the same number
of times but always test at the maximum level of user2 (the loop body uses
relaxationLevel2, not the loop index, exactly as in the source). -/
def canUsersMatch (user1 user2 : UserData) (relaxationLevel1 relaxationLevel2 : Int) : Bool :=
  if relaxationLevel1 < 0 ∨ 2 < relaxationLevel1 then false
  else
    let satisfied := dirSweep user1 user2 relaxationLevel1.toNat
    if relaxationLevel2 < 0 ∨ 2 < relaxationLevel2 then false
    else
      (List.range (relaxationLevel2.toNat + 1)).foldl
        (fun s _ => s || isCriteriaSatisfied user1 (getRelaxedCriteria relaxationLevel2 user2))
        satisfied

/- Helper lemmas about boolean folds. -/

theorem foldl_or_eq_any (f : Nat → Bool) (l : List Nat) (init : Bool) :
    l.foldl (fun s i => s || f i) init = (init || l.any f) := by
  induction l generalizing init with
  | nil => simp
  | cons x xs ih => simp [List.foldl_cons, ih, Bool.or_assoc]

theorem any_const_range (n : Nat) (c : Bool) :
    (List.range (n + 1)).any (fun _ => c) = c := by
  cases c <;> simp [List.range_succ]

theorem dirSweep_eq_any (user1 user2 : UserData) (lvl : Nat) :
    dirSweep user1 user2 lvl =
      (List.range (lvl + 1)).any
        (fun (i : Nat) => isCriteriaSatisfied user2 (getRelaxedCriteria (i : Int) user1)) := by
  unfold dirSweep
  rw [foldl_or_eq_any]
  simp

/- Sample data used by the closed witness theorems below. -/

def userA : UserData := ⟨"alice", "sockA", "Math", "Easy", 0⟩

def userB : UserData := ⟨"bob", "sockB", "Math", "Easy", 1000⟩

def userC : UserData := ⟨"carol", "sockC", "Science", "Hard", 2000⟩

/-- Claim C5: the relaxation policy equals its reference definition: the level
is 0 iff elapsed is at most the relaxation interval (inclusive bound, so
elapsed equal to the interval gives level 0 and interval plus one gives level
1), 1 iff elapsed is in the half-open band up to twice the interval, 2
otherwise; and the relaxed criteria at level 0 are the own category and
difficulty, at level 1 the own category with difficulty Any, at level 2
category Any with the own difficulty. -/
theorem relaxation_policy_spec (relaxationInterval now : Int) (u : UserData)
    (h : 1 ≤ relaxationInterval) :
    (getRelaxationLevel relaxationInterval now u = 0 ↔
      now - u.requestedAt ≤ relaxationInterval) ∧
    (getRelaxationLevel relaxationInterval now u = 1 ↔
      relaxationInterval < now - u.requestedAt ∧
        now - u.requestedAt ≤ relaxationInterval * 2) ∧
    (getRelaxationLevel relaxationInterval now u = 2 ↔
      relaxationInterval * 2 < now - u.requestedAt) ∧
    getRelaxationLevel relaxationInterval (u.requestedAt + relaxationInterval) u = 0 ∧
    getRelaxationLevel relaxationInterval (u.requestedAt + relaxationInterval + 1) u = 1 ∧
    getRelaxedCriteria 0 u = ⟨u.category, u.difficulty⟩ ∧
    getRelaxedCriteria 1 u = ⟨u.category, "Any"⟩ ∧
    getRelaxedCriteria 2 u = ⟨"Any", u.difficulty⟩ := by
  unfold getRelaxationLevel getRelaxedCriteria
  refine ⟨?_, ?_, ?_, ?_, ?_, ?_, ?_, ?_⟩ <;> simp only [] <;> split_ifs <;>
    first
      | rfl
      | omega

/-- Closed witness for claim C5 at the default relaxation interval. -/
theorem relaxation_policy_spec_witness :
    (1 : Int) ≤ 10000 ∧
    getRelaxationLevel 10000 (userA.requestedAt + 10000 + 1) userA = 1 :=
  ⟨by decide, (relaxation_policy_spec 10000 (userA.requestedAt + 10000 + 1) userA
    (by decide)).2.2.2.2.1⟩

/-- Claim C3: in canUsersMatch the second direction is decided solely by the
maximum current relaxation level of user2: for levels inside 0..2 the overall
result is the sweep over the sub-levels of user1 OR-ed with the single test
of user1 against the criteria of user2 relaxed exactly at the level of
user2, not swept across sub-levels. -/
theorem second_direction_uses_only_max_level (user1 user2 : UserData)
    (relaxationLevel1 relaxationLevel2 : Int)
    (h1a : 0 ≤ relaxationLevel1) (h1b : relaxationLevel1 ≤ 2)
    (h2a : 0 ≤ relaxationLevel2) (h2b : relaxationLevel2 ≤ 2) :
    canUsersMatch user1 user2 relaxationLevel1 relaxationLevel2 =
      (dirSweep user1 user2 relaxationLevel1.toNat ||
        isCriteriaSatisfied user1 (getRelaxedCriteria relaxationLevel2 user2)) := by
  unfold canUsersMatch
  rw [if_neg (by omega), if_neg (by omega)]
  rw [foldl_or_eq_any (fun _ => isCriteriaSatisfied user1
    (getRelaxedCriteria relaxationLevel2 user2))]
  rw [any_const_range]

/-- Closed witness for claim C3: two users with the same category at levels
0 and 2. -/
theorem second_direction_uses_only_max_level_witness :
    canUsersMatch userA userC 0 2 =
      (dirSweep userA userC (Int.toNat 0) ||
        isCriteriaSatisfied userA (getRelaxedCriteria 2 userC)) :=
  second_direction_uses_only_max_level userA userC 0 2
    (by decide) (by decide) (by decide) (by decide)

/-- Claim C7: the first direction of canUsersMatch is the disjunction of the
satisfaction tests over all sub-levels 0 through the level of user1, and it
is therefore monotone in that level: once satisfied at a level L it stays
satisfied at every level Lp with L at most Lp at most 2. -/
theorem first_direction_monotone (user1 user2 : UserData) (L Lp : Nat)
    (hLE : L ≤ Lp) (hTop : Lp ≤ 2) :
    (dirSweep user1 user2 L =
      (List.range (L + 1)).any
        (fun (i : Nat) => isCriteriaSatisfied user2 (getRelaxedCriteria (i : Int) user1))) ∧
    (dirSweep user1 user2 L = true → dirSweep user1 user2 Lp = true) := by
  refine ⟨dirSweep_eq_any user1 user2 L, ?_⟩
  intro hL
  rw [dirSweep_eq_any] at hL ⊢
  rw [List.any_eq_true] at hL ⊢
  obtain ⟨i, hi, hsat⟩ := hL
  exact ⟨i, by simp only [List.mem_range] at hi ⊢; omega, hsat⟩

/-- Closed witness for claim C7: users matching at sub-level 0 keep matching
when the level of the first user rises to 2. -/
theorem first_direction_monotone_witness :
    (dirSweep userA userB 0 =
      (List.range (0 + 1)).any
        (fun (i : Nat) => isCriteriaSatisfied userB (getRelaxedCriteria (i : Int) userA))) ∧
    (dirSweep userA userB 0 = true → dirSweep userA userB 2 = true) :=
  first_direction_monotone userA userB 0 2 (by decide) (by decide)

/- The sweep: snapshot construction, sorting, pairing scan. -/

/-- The snapshot step of matchingWorker: map every listed key to its
attribute record, keep only the keys whose record is present (the source
maps absent records to null and filters the nulls out). -/
def buildSnapshot (store : String → Option UserData) (userKeys : List String) :
    List QueueEntry :=
  userKeys.filterMap (fun userKey => (store userKey).map (fun userData => ⟨userKey, userData⟩))

/-- The comparator of the snapshot sort: ascending requestedAt. -/
def entryLE (a b : QueueEntry) : Prop :=
  a.userData.requestedAt ≤ b.userData.requestedAt

instance : DecidableRel entryLE :=
  fun a b => inferInstanceAs (Decidable (a.userData.requestedAt ≤ b.userData.requestedAt))

instance : IsTotal QueueEntry entryLE :=
  ⟨fun a b => Int.le_total a.userData.requestedAt b.userData.requestedAt⟩

instance : IsTrans QueueEntry entryLE :=
  ⟨fun _ _ _ h1 h2 => le_trans h1 h2⟩

/-- The sort step of matchingWorker: a stable sort of the snapshot by
requestedAt (the source calls the stable Array sort with this comparator). -/
def sortSnapshot (l : List QueueEntry) : List QueueEntry :=
  l.insertionSort entryLE

/-- A public summary of one participant as placed in the match message. -/
structure UserSummary where
  userId : String
  socketId : String
  category : String
  difficulty : String
deriving DecidableEq, Repr

/-- The message appended to the match_events stream by handleMatch. -/
structure MatchMessage where
  user1 : UserSummary
  user2 : UserSummary
  roomId : String
  matchId : String
deriving DecidableEq, Repr

/-- The fallible external collaborators used by handleMatch: saving the
MatchingEvent document (returns its id), saving the Room document (returns
the room id), and appending to the match_events stream. -/
structure PublishEnv where
  saveEvent : Criteria → Except String String
  saveRoom : List String → Criteria → Except String String
  addMessage : MatchMessage → Except String Unit

/-- The JS expression a or-else b on strings: b when a is the empty string. -/
def jsOrString (a b : String) : String :=
  if a = "" then b else a

/-- category resolution used by both the event and the room document:
user1.category, else user2.category, else Any. -/
def resolvedCategory (user1 user2 : UserData) : String :=
  jsOrString user1.category (jsOrString user2.category "Any")

/-- difficulty resolution used by both the event and the room document. -/
def resolvedDifficulty (user1 user2 : UserData) : String :=
  jsOrString user1.difficulty (jsOrString user2.difficulty "Any")

/-- The summary of one participant put into the match message. -/
def summaryOf (u : UserData) : UserSummary :=
  ⟨u.userId, u.socketId, u.category, u.difficulty⟩

/-- createRoom from the source: save a Room document holding both
participant ids and the resolved category and difficulty; the saved id is
the room id. -/
def createRoom (env : PublishEnv) (user1 user2 : UserData) : Except String String :=
  env.saveRoom [user1.userId, user2.userId]
    ⟨resolvedCategory user1 user2, resolvedDifficulty user1 user2⟩

/-- handleMatch from the source, without its outer catch: save the
MatchingEvent, create the room, build the match message keyed by the saved
event id, and append it to the stream; any failing step propagates. -/
def handleMatch (env : PublishEnv) (user1 user2 : UserData) :
    Except String MatchMessage :=
  match env.saveEvent ⟨resolvedCategory user1 user2, resolvedDifficulty user1 user2⟩ with
  | Except.error e => Except.error e
  | Except.ok matchId =>
    match createRoom env user1 user2 with
    | Except.error e => Except.error e
    | Except.ok roomId =>
      let matchMessage : MatchMessage :=
        ⟨summaryOf user1, summaryOf user2, roomId, matchId⟩
      match env.addMessage matchMessage with
      | Except.error e => Except.error e
      | Except.ok _ => Except.ok matchMessage

/-- handleMatch including its catch block: a failure is logged and swallowed,
so the caller always gets a plain value (the appended message on success,
nothing on failure). -/
def handleMatchCaught (env : PublishEnv) (user1 user2 : UserData) :
    Option MatchMessage :=
  match handleMatch env user1 user2 with
  | Except.ok m => some m
  | Except.error _ => none

/-- The mutable state read and written by the pairing scan: the queue
membership, the per-tick matchedUsers set, the pairs claimed this tick and
the trace of successfully appended match messages. -/
structure ScanState where
  queue : Finset String
  matchedUsers : Finset String
  pairs : List (QueueEntry × QueueEntry)
  published : List MatchMessage
deriving DecidableEq

/-- The inner loop of the pairing scan: walk the entries after user1 in
snapshot order, skip the ones already matched or no longer present, and
return the first one passing canUsersMatch. -/
def findPartner (relaxationInterval now : Int) (queue matched : Finset String)
    (user1 : QueueEntry) : List QueueEntry → Option QueueEntry
  | [] => none
  | user2 :: rest =>
    if user2.userKey ∈ matched then
      findPartner relaxationInterval now queue matched user1 rest
    else if user2.userKey ∉ queue then
      findPartner relaxationInterval now queue matched user1 rest
    else if canUsersMatch user1.userData user2.userData
        (getRelaxationLevel relaxationInterval now user1.userData)
        (getRelaxationLevel relaxationInterval now user2.userData) = true then
      some user2
    else
      findPartner relaxationInterval now queue matched user1 rest

/-- The outer loop of the pairing scan of matchingWorker: for each snapshot
entry in order, skip it when already matched or no longer present, otherwise
look for the first compatible partner among the later entries; on a find,
mark both keys matched, remove both from the queue, record the pair, run
handleMatch (whose outcome only extends the published trace) and advance to
the next entry. -/
def pairScan (env : PublishEnv) (relaxationInterval now : Int) :
    List QueueEntry → ScanState → ScanState
  | [], st => st
  | user1 :: rest, st =>
    if user1.userKey ∈ st.matchedUsers then
      pairScan env relaxationInterval now rest st
    else if user1.userKey ∉ st.queue then
      pairScan env relaxationInterval now rest st
    else
      match findPartner relaxationInterval now st.queue st.matchedUsers user1 rest with
      | none => pairScan env relaxationInterval now rest st
      | some user2 =>
        pairScan env relaxationInterval now rest
          { queue := (st.queue.erase user1.userKey).erase user2.userKey,
            matchedUsers := insert user2.userKey (insert user1.userKey st.matchedUsers),
            pairs := st.pairs ++ [(user1, user2)],
            published := st.published ++ (handleMatchCaught env user1.userData user2.userData).toList }

/-- Claim C2: every listed key whose attribute record is absent from the
store is excluded from the snapshot, and the sorted snapshot holds exactly
the listed keys with a present record, joined to that record. -/
theorem snapshot_drops_missing_records (store : String → Option UserData)
    (userKeys : List String) :
    (∀ e ∈ sortSnapshot (buildSnapshot store userKeys),
      e.userKey ∈ userKeys ∧ store e.userKey = some e.userData) ∧
    (∀ k ∈ userKeys, store k = none →
      ∀ e ∈ sortSnapshot (buildSnapshot store userKeys), e.userKey ≠ k) ∧
    (∀ k d, k ∈ userKeys → store k = some d →
      (⟨k, d⟩ : QueueEntry) ∈ sortSnapshot (buildSnapshot store userKeys)) := by
  have hmem : ∀ e : QueueEntry,
      e ∈ sortSnapshot (buildSnapshot store userKeys) ↔
        e ∈ buildSnapshot store userKeys :=
    fun e => (List.perm_insertionSort entryLE (buildSnapshot store userKeys)).mem_iff
  refine ⟨?_, ?_, ?_⟩
  · intro e he
    rw [hmem] at he
    simp only [buildSnapshot, List.mem_filterMap, Option.map_eq_some'] at he
    obtain ⟨k, hk, d, hd, he⟩ := he
    subst he
    exact ⟨hk, hd⟩
  · intro k hk hnone e he hkey
    rw [hmem] at he
    simp only [buildSnapshot, List.mem_filterMap, Option.map_eq_some'] at he
    obtain ⟨k2, _, d, hd, he⟩ := he
    subst he
    simp only at hkey
    subst hkey
    rw [hnone] at hd
    exact Option.noConfusion hd
  · intro k d hk hd
    rw [hmem]
    simp only [buildSnapshot, List.mem_filterMap, Option.map_eq_some']
    exact ⟨k, hk, d, hd, rfl⟩

/-- Closed witness for claim C2: a store where one listed key lacks its
record. -/
theorem snapshot_drops_missing_records_witness :
    (∀ e ∈ sortSnapshot (buildSnapshot
        (fun k => if k = "user:alice" then some userA else none)
        ["user:alice", "user:ghost"]),
      e.userKey ∈ ["user:alice", "user:ghost"] ∧
      (fun k => if k = "user:alice" then some userA else none) e.userKey =
        some e.userData) ∧
    (∀ e ∈ sortSnapshot (buildSnapshot
        (fun k => if k = "user:alice" then some userA else none)
        ["user:alice", "user:ghost"]), e.userKey ≠ "user:ghost") ∧
    ((⟨"user:alice", userA⟩ : QueueEntry) ∈ sortSnapshot (buildSnapshot
        (fun k => if k = "user:alice" then some userA else none)
        ["user:alice", "user:ghost"])) := by
  have h := snapshot_drops_missing_records
    (fun k => if k = "user:alice" then some userA else none)
    ["user:alice", "user:ghost"]
  exact ⟨h.1, h.2.1 "user:ghost" (by decide) (by decide),
    h.2.2 "user:alice" userA (by decide) (by decide)⟩

/- Sample snapshot entries and publish environments for the witnesses. -/

def entryA : QueueEntry := ⟨"user:alice", userA⟩

def entryB : QueueEntry := ⟨"user:bob", userB⟩

def entryC : QueueEntry := ⟨"user:carol", userC⟩

def envOk : PublishEnv :=
  ⟨fun _ => Except.ok "event1", fun _ _ => Except.ok "room1", fun _ => Except.ok ()⟩

def envFail : PublishEnv :=
  ⟨fun _ => Except.error "db down", fun _ _ => Except.error "db down",
    fun _ => Except.error "db down"⟩

/-- findPartner finds exactly the first still-present, unclaimed, compatible
entry: the scanned list splits as ahead ++ partner :: behind where every
still-present unclaimed entry of ahead fails canUsersMatch. -/
theorem findPartner_sound (relaxationInterval now : Int) (queue matched : Finset String)
    (user1 : QueueEntry) (rest : List QueueEntry) (user2 : QueueEntry)
    (h : findPartner relaxationInterval now queue matched user1 rest = some user2) :
    ∃ ahead behind, rest = ahead ++ user2 :: behind ∧
      user2.userKey ∉ matched ∧ user2.userKey ∈ queue ∧
      canUsersMatch user1.userData user2.userData
        (getRelaxationLevel relaxationInterval now user1.userData)
        (getRelaxationLevel relaxationInterval now user2.userData) = true ∧
      ∀ e ∈ ahead, e.userKey ∉ matched → e.userKey ∈ queue →
        canUsersMatch user1.userData e.userData
          (getRelaxationLevel relaxationInterval now user1.userData)
          (getRelaxationLevel relaxationInterval now e.userData) = false := by
  induction rest with
  | nil => simp [findPartner] at h
  | cons e rest ih =>
    simp only [findPartner] at h
    by_cases h1 : e.userKey ∈ matched
    · rw [if_pos h1] at h
      obtain ⟨ahead, behind, hsplit, hm, hq, hcan, hfirst⟩ := ih h
      refine ⟨e :: ahead, behind, by rw [hsplit, List.cons_append], hm, hq, hcan, ?_⟩
      intro x hx hxm hxq
      rcases List.mem_cons.mp hx with hx | hx
      · exact absurd (hx ▸ h1) hxm
      · exact hfirst x hx hxm hxq
    · rw [if_neg h1] at h
      by_cases h2 : e.userKey ∈ queue
      · rw [if_neg (not_not_intro h2)] at h
        by_cases h3 : canUsersMatch user1.userData e.userData
            (getRelaxationLevel relaxationInterval now user1.userData)
            (getRelaxationLevel relaxationInterval now e.userData) = true
        · rw [if_pos h3] at h
          obtain rfl : e = user2 := Option.some.inj h
          exact ⟨[], rest, rfl, h1, h2, h3, by intro x hx; exact absurd hx (List.not_mem_nil x)⟩
        · rw [if_neg h3] at h
          obtain ⟨ahead, behind, hsplit, hm, hq, hcan, hfirst⟩ := ih h
          refine ⟨e :: ahead, behind, by rw [hsplit, List.cons_append], hm, hq, hcan, ?_⟩
          intro x hx hxm hxq
          rcases List.mem_cons.mp hx with hx | hx
          · exact hx ▸ Bool.eq_false_iff.mpr (hx ▸ h3)
          · exact hfirst x hx hxm hxq
      · rw [if_pos h2] at h
        obtain ⟨ahead, behind, hsplit, hm, hq, hcan, hfirst⟩ := ih h
        refine ⟨e :: ahead, behind, by rw [hsplit, List.cons_append], hm, hq, hcan, ?_⟩
        intro x hx hxm hxq
        rcases List.mem_cons.mp hx with hx | hx
        · exact absurd (hx ▸ hxq) h2
        · exact hfirst x hx hxm hxq

/-- Two claimed pairs touch four pairwise distinct keys. -/
def pairDisjoint (p q : QueueEntry × QueueEntry) : Prop :=
  p.1.userKey ≠ q.1.userKey ∧ p.1.userKey ≠ q.2.userKey ∧
  p.2.userKey ≠ q.1.userKey ∧ p.2.userKey ≠ q.2.userKey

/-- Invariant of the pairing scan: every claimed pair has both keys in the
matchedUsers set and out of the queue, its two keys differ, and the claimed
pairs are pairwise disjoint. -/
def PairsOk (st : ScanState) : Prop :=
  (∀ p ∈ st.pairs,
    p.1.userKey ∈ st.matchedUsers ∧ p.2.userKey ∈ st.matchedUsers ∧
    p.1.userKey ≠ p.2.userKey ∧ p.1.userKey ∉ st.queue ∧ p.2.userKey ∉ st.queue) ∧
  st.pairs.Pairwise pairDisjoint

theorem pairScan_invariant (env : PublishEnv) (relaxationInterval now : Int)
    (l : List QueueEntry) :
    ∀ st : ScanState, (l.map QueueEntry.userKey).Nodup → PairsOk st →
      PairsOk (pairScan env relaxationInterval now l st) := by
  induction l with
  | nil => intro st _ hok; simpa [pairScan] using hok
  | cons user1 rest ih =>
    intro st hnd hok
    rw [List.map_cons, List.nodup_cons] at hnd
    obtain ⟨hnd1, hnd2⟩ := hnd
    simp only [pairScan]
    by_cases h1 : user1.userKey ∈ st.matchedUsers
    · rw [if_pos h1]; exact ih st hnd2 hok
    · rw [if_neg h1]
      by_cases h2 : user1.userKey ∈ st.queue
      case neg => rw [if_pos h2]; exact ih st hnd2 hok
      rw [if_neg (not_not_intro h2)]
      cases hfp : findPartner relaxationInterval now st.queue st.matchedUsers user1 rest with
      | none => simp only [hfp]; exact ih st hnd2 hok
      | some user2 =>
        simp only [hfp]
        obtain ⟨ahead, behind, hsplit, hu2m, hu2q, _, _⟩ :=
          findPartner_sound relaxationInterval now st.queue st.matchedUsers user1 rest user2 hfp
        have hu2rest : user2 ∈ rest := by
          rw [hsplit]; exact List.mem_append_right ahead (List.mem_cons_self user2 behind)
        have hne : user1.userKey ≠ user2.userKey := by
          intro hEq
          exact hnd1 (hEq ▸ List.mem_map_of_mem QueueEntry.userKey hu2rest)
        refine ih _ hnd2 ⟨?_, ?_⟩
        · intro p hp
          rcases List.mem_append.mp hp with hp | hp
          · obtain ⟨hpm1, hpm2, hpne, hpq1, hpq2⟩ := hok.1 p hp
            refine ⟨Finset.mem_insert_of_mem (Finset.mem_insert_of_mem hpm1),
              Finset.mem_insert_of_mem (Finset.mem_insert_of_mem hpm2), hpne, ?_, ?_⟩
            · exact fun hc => hpq1 (Finset.mem_of_mem_erase (Finset.mem_of_mem_erase hc))
            · exact fun hc => hpq2 (Finset.mem_of_mem_erase (Finset.mem_of_mem_erase hc))
          · obtain rfl : p = (user1, user2) := by simpa using hp
            refine ⟨Finset.mem_insert_of_mem (Finset.mem_insert_self _ _),
              Finset.mem_insert_self _ _, hne, ?_, ?_⟩
            · exact fun hc =>
                Finset.not_mem_erase user1.userKey st.queue (Finset.mem_of_mem_erase hc)
            · exact Finset.not_mem_erase user2.userKey _
        · rw [List.pairwise_append]
          refine ⟨hok.2, List.pairwise_singleton _ _, ?_⟩
          intro p hp q hq
          obtain rfl : q = (user1, user2) := by simpa using hq
          obtain ⟨hpm1, hpm2, _, _, _⟩ := hok.1 p hp
          exact ⟨fun hc => h1 (hc ▸ hpm1), fun hc => hu2m (hc ▸ hpm1),
            fun hc => h1 (hc ▸ hpm2), fun hc => hu2m (hc ▸ hpm2)⟩

/-- Claim C4: within a single sweep no key is claimed into two matched pairs:
starting from an empty per-tick claimed set, the pairs produced by the
pairing scan are pairwise disjoint, each pair consists of two distinct keys,
and both keys of every pair are recorded in the final matchedUsers set. -/
theorem sweep_pairs_disjoint (env : PublishEnv) (relaxationInterval now : Int)
    (snapshot : List QueueEntry) (queue0 : Finset String)
    (hnd : (snapshot.map QueueEntry.userKey).Nodup) :
    (pairScan env relaxationInterval now snapshot
        ⟨queue0, ∅, [], []⟩).pairs.Pairwise pairDisjoint ∧
    ∀ p ∈ (pairScan env relaxationInterval now snapshot ⟨queue0, ∅, [], []⟩).pairs,
      p.1.userKey ≠ p.2.userKey ∧
      p.1.userKey ∈ (pairScan env relaxationInterval now snapshot
        ⟨queue0, ∅, [], []⟩).matchedUsers ∧
      p.2.userKey ∈ (pairScan env relaxationInterval now snapshot
        ⟨queue0, ∅, [], []⟩).matchedUsers := by
  have hinv := pairScan_invariant env relaxationInterval now snapshot
    ⟨queue0, ∅, [], []⟩ hnd
    ⟨by intro p hp; exact absurd hp (List.not_mem_nil p), List.Pairwise.nil⟩
  exact ⟨hinv.2, fun p hp =>
    ⟨(hinv.1 p hp).2.2.1, (hinv.1 p hp).1, (hinv.1 p hp).2.1⟩⟩

/-- Closed witness for claim C4: a three-entry snapshot in which alice and
bob get matched. -/
theorem sweep_pairs_disjoint_witness :
    (pairScan envOk 10000 2000 [entryA, entryC, entryB]
        ⟨{"user:alice", "user:carol", "user:bob"}, ∅, [], []⟩).pairs.Pairwise pairDisjoint ∧
    ∀ p ∈ (pairScan envOk 10000 2000 [entryA, entryC, entryB]
        ⟨{"user:alice", "user:carol", "user:bob"}, ∅, [], []⟩).pairs,
      p.1.userKey ≠ p.2.userKey ∧
      p.1.userKey ∈ (pairScan envOk 10000 2000 [entryA, entryC, entryB]
        ⟨{"user:alice", "user:carol", "user:bob"}, ∅, [], []⟩).matchedUsers ∧
      p.2.userKey ∈ (pairScan envOk 10000 2000 [entryA, entryC, entryB]
        ⟨{"user:alice", "user:carol", "user:bob"}, ∅, [], []⟩).matchedUsers :=
  sweep_pairs_disjoint envOk 10000 2000 [entryA, entryC, entryB]
    {"user:alice", "user:carol", "user:bob"} (by decide)

/-- Claim C6: the pairing scan is greedy earliest-first, first-fit: the
snapshot sort is ascending in requestedAt; the inner scan returns the first
still-present unclaimed compatible partner after the current entry; and on a
find the scan claims exactly the two keys, removes exactly those two from
the queue, records the pair, and advances to the next outer entry. -/
theorem greedy_first_fit_pairing :
    (∀ l : List QueueEntry, List.Pairwise entryLE (sortSnapshot l)) ∧
    (∀ (relaxationInterval now : Int) (queue matched : Finset String)
        (user1 user2 : QueueEntry) (rest : List QueueEntry),
      findPartner relaxationInterval now queue matched user1 rest = some user2 →
      ∃ ahead behind, rest = ahead ++ user2 :: behind ∧
        user2.userKey ∉ matched ∧ user2.userKey ∈ queue ∧
        canUsersMatch user1.userData user2.userData
          (getRelaxationLevel relaxationInterval now user1.userData)
          (getRelaxationLevel relaxationInterval now user2.userData) = true ∧
        ∀ e ∈ ahead, e.userKey ∉ matched → e.userKey ∈ queue →
          canUsersMatch user1.userData e.userData
            (getRelaxationLevel relaxationInterval now user1.userData)
            (getRelaxationLevel relaxationInterval now e.userData) = false) ∧
    (∀ (env : PublishEnv) (relaxationInterval now : Int) (st : ScanState)
        (user1 user2 : QueueEntry) (rest : List QueueEntry),
      user1.userKey ∉ st.matchedUsers → user1.userKey ∈ st.queue →
      findPartner relaxationInterval now st.queue st.matchedUsers user1 rest = some user2 →
      pairScan env relaxationInterval now (user1 :: rest) st =
        pairScan env relaxationInterval now rest
          { queue := (st.queue.erase user1.userKey).erase user2.userKey,
            matchedUsers := insert user2.userKey (insert user1.userKey st.matchedUsers),
            pairs := st.pairs ++ [(user1, user2)],
            published := st.published ++
              (handleMatchCaught env user1.userData user2.userData).toList }) := by
  refine ⟨fun l => List.sorted_insertionSort entryLE l,
    fun relaxationInterval now queue matched user1 user2 rest h =>
      findPartner_sound relaxationInterval now queue matched user1 rest user2 h,
    ?_⟩
  intro env relaxationInterval now st user1 user2 rest hm hq hfp
  simp only [pairScan]
  rw [if_neg hm, if_neg (not_not_intro hq), hfp]

/-- Closed witness for claim C6: alice skips incompatible carol and pairs
with bob, the first compatible later entry. -/
theorem greedy_first_fit_pairing_witness :
    List.Pairwise entryLE (sortSnapshot [entryB, entryC, entryA]) ∧
    (∃ ahead behind, [entryC, entryB] = ahead ++ entryB :: behind ∧
      entryB.userKey ∉ (∅ : Finset String) ∧
      entryB.userKey ∈ ({"user:alice", "user:carol", "user:bob"} : Finset String) ∧
      canUsersMatch entryA.userData entryB.userData
        (getRelaxationLevel 10000 2000 entryA.userData)
        (getRelaxationLevel 10000 2000 entryB.userData) = true ∧
      ∀ e ∈ ahead, e.userKey ∉ (∅ : Finset String) →
        e.userKey ∈ ({"user:alice", "user:carol", "user:bob"} : Finset String) →
        canUsersMatch entryA.userData e.userData
          (getRelaxationLevel 10000 2000 entryA.userData)
          (getRelaxationLevel 10000 2000 e.userData) = false) ∧
    pairScan envOk 10000 2000 (entryA :: [entryC, entryB])
        ⟨{"user:alice", "user:carol", "user:bob"}, ∅, [], []⟩ =
      pairScan envOk 10000 2000 [entryC, entryB]
        { queue := (({"user:alice", "user:carol", "user:bob"} : Finset String).erase
            entryA.userKey).erase entryB.userKey,
          matchedUsers := insert entryB.userKey (insert entryA.userKey (∅ : Finset String)),
          pairs := ([] : List (QueueEntry × QueueEntry)) ++ [(entryA, entryB)],
          published := ([] : List MatchMessage) ++
            (handleMatchCaught envOk entryA.userData entryB.userData).toList } :=
  ⟨greedy_first_fit_pairing.1 [entryB, entryC, entryA],
    greedy_first_fit_pairing.2.1 10000 2000 {"user:alice", "user:carol", "user:bob"} ∅
      entryA entryB [entryC, entryB] (by decide),
    greedy_first_fit_pairing.2.2 envOk 10000 2000
      ⟨{"user:alice", "user:carol", "user:bob"}, ∅, [], []⟩
      entryA entryB [entryC, entryB] (by decide) (by decide) (by decide)⟩

/-- The publish outcome never feeds back into the scan: two runs over the
same snapshot and same queue, matched set and pairs, under any two publish
environments, agree on the final queue, matched set and pairs. -/
theorem pairScan_env_agnostic (env1 env2 : PublishEnv) (relaxationInterval now : Int) :
    ∀ (l : List QueueEntry) (q m : Finset String) (p : List (QueueEntry × QueueEntry))
      (pub1 pub2 : List MatchMessage),
      (pairScan env1 relaxationInterval now l ⟨q, m, p, pub1⟩).queue =
        (pairScan env2 relaxationInterval now l ⟨q, m, p, pub2⟩).queue ∧
      (pairScan env1 relaxationInterval now l ⟨q, m, p, pub1⟩).matchedUsers =
        (pairScan env2 relaxationInterval now l ⟨q, m, p, pub2⟩).matchedUsers ∧
      (pairScan env1 relaxationInterval now l ⟨q, m, p, pub1⟩).pairs =
        (pairScan env2 relaxationInterval now l ⟨q, m, p, pub2⟩).pairs := by
  intro l
  induction l with
  | nil => intro q m p pub1 pub2; exact ⟨rfl, rfl, rfl⟩
  | cons user1 rest ih =>
    intro q m p pub1 pub2
    simp only [pairScan]
    by_cases h1 : user1.userKey ∈ m
    · rw [if_pos h1, if_pos h1]; exact ih q m p pub1 pub2
    · rw [if_neg h1, if_neg h1]
      by_cases h2 : user1.userKey ∈ q
      case neg => rw [if_pos h2, if_pos h2]; exact ih q m p pub1 pub2
      rw [if_neg (not_not_intro h2), if_neg (not_not_intro h2)]
      cases hfp : findPartner relaxationInterval now q m user1 rest with
      | none => simp only [hfp]; exact ih q m p pub1 pub2
      | some user2 => simp only [hfp]; exact ih _ _ _ _ _

/-- Claim C8: a failing publish step is caught inside handleMatch, so the
sweep continues with the remaining entries exactly as a successful run would
(same final queue, matched set and claimed pairs under any two publish
environments), and the two removed entries are never restored: both keys of
every claimed pair are absent from the final queue. -/
theorem publish_failure_does_not_affect_sweep :
    (∀ (env1 env2 : PublishEnv) (relaxationInterval now : Int) (l : List QueueEntry)
        (q m : Finset String) (p : List (QueueEntry × QueueEntry))
        (pub1 pub2 : List MatchMessage),
      (pairScan env1 relaxationInterval now l ⟨q, m, p, pub1⟩).queue =
        (pairScan env2 relaxationInterval now l ⟨q, m, p, pub2⟩).queue ∧
      (pairScan env1 relaxationInterval now l ⟨q, m, p, pub1⟩).matchedUsers =
        (pairScan env2 relaxationInterval now l ⟨q, m, p, pub2⟩).matchedUsers ∧
      (pairScan env1 relaxationInterval now l ⟨q, m, p, pub1⟩).pairs =
        (pairScan env2 relaxationInterval now l ⟨q, m, p, pub2⟩).pairs) ∧
    (∀ (env : PublishEnv) (relaxationInterval now : Int) (snapshot : List QueueEntry)
        (queue0 : Finset String),
      (snapshot.map QueueEntry.userKey).Nodup →
      ∀ p ∈ (pairScan env relaxationInterval now snapshot ⟨queue0, ∅, [], []⟩).pairs,
        p.1.userKey ∉ (pairScan env relaxationInterval now snapshot
          ⟨queue0, ∅, [], []⟩).queue ∧
        p.2.userKey ∉ (pairScan env relaxationInterval now snapshot
          ⟨queue0, ∅, [], []⟩).queue) := by
  refine ⟨fun env1 env2 relaxationInterval now l q m p pub1 pub2 =>
    pairScan_env_agnostic env1 env2 relaxationInterval now l q m p pub1 pub2, ?_⟩
  intro env relaxationInterval now snapshot queue0 hnd p hp
  have hinv := pairScan_invariant env relaxationInterval now snapshot
    ⟨queue0, ∅, [], []⟩ hnd
    ⟨by intro x hx; exact absurd hx (List.not_mem_nil x), List.Pairwise.nil⟩
  exact ⟨(hinv.1 p hp).2.2.2.1, (hinv.1 p hp).2.2.2.2⟩

/-- Closed witness for claim C8: the all-failing and all-succeeding publish
environments drive the same sweep, and the matched keys of alice and bob
stay out of the queue. -/
theorem publish_failure_does_not_affect_sweep_witness :
    ((pairScan envFail 10000 2000 [entryA, entryC, entryB]
        ⟨{"user:alice", "user:carol", "user:bob"}, ∅, [], []⟩).queue =
      (pairScan envOk 10000 2000 [entryA, entryC, entryB]
        ⟨{"user:alice", "user:carol", "user:bob"}, ∅, [], []⟩).queue ∧
      (pairScan envFail 10000 2000 [entryA, entryC, entryB]
        ⟨{"user:alice", "user:carol", "user:bob"}, ∅, [], []⟩).matchedUsers =
      (pairScan envOk 10000 2000 [entryA, entryC, entryB]
        ⟨{"user:alice", "user:carol", "user:bob"}, ∅, [], []⟩).matchedUsers ∧
      (pairScan envFail 10000 2000 [entryA, entryC, entryB]
        ⟨{"user:alice", "user:carol", "user:bob"}, ∅, [], []⟩).pairs =
      (pairScan envOk 10000 2000 [entryA, entryC, entryB]
        ⟨{"user:alice", "user:carol", "user:bob"}, ∅, [], []⟩).pairs) ∧
    (∀ p ∈ (pairScan envFail 10000 2000 [entryA, entryC, entryB]
        ⟨{"user:alice", "user:carol", "user:bob"}, ∅, [], []⟩).pairs,
      p.1.userKey ∉ (pairScan envFail 10000 2000 [entryA, entryC, entryB]
        ⟨{"user:alice", "user:carol", "user:bob"}, ∅, [], []⟩).queue ∧
      p.2.userKey ∉ (pairScan envFail 10000 2000 [entryA, entryC, entryB]
        ⟨{"user:alice", "user:carol", "user:bob"}, ∅, [], []⟩).queue) :=
  ⟨publish_failure_does_not_affect_sweep.1 envFail envOk 10000 2000
      [entryA, entryC, entryB] {"user:alice", "user:carol", "user:bob"} ∅ [] [] [],
    publish_failure_does_not_affect_sweep.2 envFail 10000 2000
      [entryA, entryC, entryB] {"user:alice", "user:carol", "user:bob"} (by decide)⟩

/-- Claim C9: the publisher resolves category and difficulty as the first
non-empty of the two participant values, else Any; and whenever handleMatch
succeeds, the persisted event was saved with exactly those resolved values,
the room was requested with both participant ids and the same resolved
values, and the appended message carries the summaries of both participants,
the allocated room id and the saved event id as its match key. -/
theorem publisher_resolution_and_event_contents :
    (∀ user1 user2 : UserData, user1.category ≠ "" →
      resolvedCategory user1 user2 = user1.category) ∧
    (∀ user1 user2 : UserData, user1.category = "" → user2.category ≠ "" →
      resolvedCategory user1 user2 = user2.category) ∧
    (∀ user1 user2 : UserData, user1.category = "" → user2.category = "" →
      resolvedCategory user1 user2 = "Any") ∧
    (∀ user1 user2 : UserData, user1.difficulty ≠ "" →
      resolvedDifficulty user1 user2 = user1.difficulty) ∧
    (∀ user1 user2 : UserData, user1.difficulty = "" → user2.difficulty ≠ "" →
      resolvedDifficulty user1 user2 = user2.difficulty) ∧
    (∀ user1 user2 : UserData, user1.difficulty = "" → user2.difficulty = "" →
      resolvedDifficulty user1 user2 = "Any") ∧
    (∀ (env : PublishEnv) (user1 user2 : UserData) (m : MatchMessage),
      handleMatch env user1 user2 = Except.ok m →
      env.saveEvent ⟨resolvedCategory user1 user2, resolvedDifficulty user1 user2⟩ =
        Except.ok m.matchId ∧
      env.saveRoom [user1.userId, user2.userId]
        ⟨resolvedCategory user1 user2, resolvedDifficulty user1 user2⟩ =
        Except.ok m.roomId ∧
      env.addMessage m = Except.ok () ∧
      m.user1 = summaryOf user1 ∧ m.user2 = summaryOf user2) := by
  refine ⟨?_, ?_, ?_, ?_, ?_, ?_, ?_⟩
  · intro user1 user2 h
    simp [resolvedCategory, jsOrString, h]
  · intro user1 user2 h1 h2
    simp [resolvedCategory, jsOrString, h1, h2]
  · intro user1 user2 h1 h2
    simp [resolvedCategory, jsOrString, h1, h2]
  · intro user1 user2 h
    simp [resolvedDifficulty, jsOrString, h]
  · intro user1 user2 h1 h2
    simp [resolvedDifficulty, jsOrString, h1, h2]
  · intro user1 user2 h1 h2
    simp [resolvedDifficulty, jsOrString, h1, h2]
  · intro env user1 user2 m h
    cases h1 : env.saveEvent ⟨resolvedCategory user1 user2, resolvedDifficulty user1 user2⟩ with
    | error e =>
      simp only [handleMatch, h1] at h
      exact Except.noConfusion h
    | ok matchId =>
      cases h2 : createRoom env user1 user2 with
      | error e =>
        simp only [handleMatch, h1, h2] at h
        exact Except.noConfusion h
      | ok roomId =>
        cases h3 : env.addMessage ⟨summaryOf user1, summaryOf user2, roomId, matchId⟩ with
        | error e =>
          simp only [handleMatch, h1, h2, h3] at h
          exact Except.noConfusion h
        | ok u =>
          simp only [handleMatch, h1, h2, h3] at h
          obtain rfl : (⟨summaryOf user1, summaryOf user2, roomId, matchId⟩ : MatchMessage) = m :=
            Except.ok.inj h
          unfold createRoom at h2
          exact ⟨rfl, h2, by cases u; exact h3, rfl, rfl⟩

/-- Closed witness for claim C9: a successful run on alice and bob. -/
theorem publisher_resolution_and_event_contents_witness :
    resolvedCategory userA userB = userA.category ∧
    (envOk.saveEvent ⟨resolvedCategory userA userB, resolvedDifficulty userA userB⟩ =
      Except.ok (⟨summaryOf userA, summaryOf userB, "room1", "event1"⟩ : MatchMessage).matchId ∧
    envOk.saveRoom [userA.userId, userB.userId]
      ⟨resolvedCategory userA userB, resolvedDifficulty userA userB⟩ =
      Except.ok (⟨summaryOf userA, summaryOf userB, "room1", "event1"⟩ : MatchMessage).roomId ∧
    envOk.addMessage ⟨summaryOf userA, summaryOf userB, "room1", "event1"⟩ = Except.ok () ∧
    (⟨summaryOf userA, summaryOf userB, "room1", "event1"⟩ : MatchMessage).user1 =
      summaryOf userA ∧
    (⟨summaryOf userA, summaryOf userB, "room1", "event1"⟩ : MatchMessage).user2 =
      summaryOf userB) :=
  ⟨publisher_resolution_and_event_contents.1 userA userB (by decide),
    publisher_resolution_and_event_contents.2.2.2.2.2.2 envOk userA userB
      ⟨summaryOf userA, summaryOf userB, "room1", "event1"⟩ rfl⟩

/- The timeout pass. -/

/-- The state touched by handleTimeouts: queue membership, the set of keys
whose attribute record still exists, and the trace of MATCH_FAILED
notifications (socket ids, in emission order). -/
structure TimeoutState where
  queue : Finset String
  dataKeys : Finset String
  notifications : List String
deriving DecidableEq

/-- handleTimeouts from the source: for each snapshot entry whose elapsed
wait reaches the timeout, look up the socket of the owner; only when a
socket is present and connected does the code emit MATCH_FAILED, remove the
key from the queue and delete the attribute record — otherwise the entry is
left untouched. The sockets argument models io.sockets.sockets.get composed
with the connected flag. -/
def handleTimeouts (sockets : String → Option Bool) (matchTimeout currentTime : Int) :
    List QueueEntry → TimeoutState → TimeoutState
  | [], st => st
  | entry :: rest, st =>
    let elapsedTime := currentTime - entry.userData.requestedAt
    if matchTimeout ≤ elapsedTime then
      match sockets entry.userData.socketId with
      | some true =>
        handleTimeouts sockets matchTimeout currentTime rest
          { queue := st.queue.erase entry.userKey,
            dataKeys := st.dataKeys.erase entry.userKey,
            notifications := st.notifications ++ [entry.userData.socketId] }
      | _ => handleTimeouts sockets matchTimeout currentTime rest st
    else
      handleTimeouts sockets matchTimeout currentTime rest st

/-- Claim C1 is violated by the code: a timed-out entry whose owner has no
connected socket is NOT evicted — handleTimeouts leaves the queue, the
attribute record and the notification trace unchanged, while the same entry
with a connected socket is evicted with exactly one notification. -/
theorem timeout_eviction_blocked_by_disconnected_socket :
    (30000 : Int) - userA.requestedAt ≥ 30000 ∧
    handleTimeouts (fun _ => none) 30000 30000 [entryA]
        ⟨{"user:alice"}, {"user:alice"}, []⟩ =
      ⟨{"user:alice"}, {"user:alice"}, []⟩ ∧
    handleTimeouts (fun _ => some true) 30000 30000 [entryA]
        ⟨{"user:alice"}, {"user:alice"}, []⟩ =
      ⟨∅, ∅, ["sockA"]⟩ := by
  refine ⟨by decide, by decide, by decide⟩

/- Guarded variants tracking every call to getRelaxedCriteria. -/

/-- getRelaxedCriteria with its level argument tracked: none exactly when the
default branch of the switch would be the one taken for a level outside
0..2. -/
def getRelaxedCriteriaChecked (relaxationLevel : Int) (userData : UserData) :
    Option Criteria :=
  if 0 ≤ relaxationLevel ∧ relaxationLevel ≤ 2 then
    some (getRelaxedCriteria relaxationLevel userData)
  else none

/-- The first loop of canUsersMatch with tracked criteria calls. -/
def dirSweepChecked (user1 user2 : UserData) (lvl : Nat) : Option Bool :=
  (List.range (lvl + 1)).foldl
    (fun acc (i : Nat) =>
      match acc, getRelaxedCriteriaChecked (i : Int) user1 with
      | some s, some c => some (s || isCriteriaSatisfied user2 c)
      | _, _ => none)
    (some false)

/-- canUsersMatch with tracked criteria calls: none would signal that some
call reached the default branch of getRelaxedCriteria. -/
def canUsersMatchChecked (user1 user2 : UserData)
    (relaxationLevel1 relaxationLevel2 : Int) : Option Bool :=
  if relaxationLevel1 < 0 ∨ 2 < relaxationLevel1 then some false
  else
    match dirSweepChecked user1 user2 relaxationLevel1.toNat with
    | none => none
    | some satisfied =>
      if relaxationLevel2 < 0 ∨ 2 < relaxationLevel2 then some false
      else
        (List.range (relaxationLevel2.toNat + 1)).foldl
          (fun acc _ =>
            match acc, getRelaxedCriteriaChecked relaxationLevel2 user2 with
            | some s, some c => some (s || isCriteriaSatisfied user1 c)
            | _, _ => none)
          (some satisfied)

theorem getRelaxedCriteriaChecked_eq (lvl : Int) (u : UserData)
    (h0 : 0 ≤ lvl) (h2 : lvl ≤ 2) :
    getRelaxedCriteriaChecked lvl u = some (getRelaxedCriteria lvl u) :=
  if_pos ⟨h0, h2⟩

theorem foldl_checked_eq (u : UserData) (g : Nat → Option Criteria) (gp : Nat → Criteria)
    (l : List Nat) (hg : ∀ i ∈ l, g i = some (gp i)) : ∀ s : Bool,
    l.foldl (fun acc i =>
        match acc, g i with
        | some s0, some c => some (s0 || isCriteriaSatisfied u c)
        | _, _ => none) (some s) =
      some (l.foldl (fun s0 i => s0 || isCriteriaSatisfied u (gp i)) s) := by
  revert hg
  induction l with
  | nil => intro hg s; rfl
  | cons i l ih =>
    intro hg s
    rw [List.foldl_cons, List.foldl_cons, hg i (List.mem_cons_self i l)]
    exact ih (fun j hj => hg j (List.mem_cons_of_mem i hj))
      (s || isCriteriaSatisfied u (gp i))

theorem dirSweepChecked_eq (user1 user2 : UserData) (n : Nat) (hn : n ≤ 2) :
    dirSweepChecked user1 user2 n = some (dirSweep user1 user2 n) := by
  unfold dirSweepChecked dirSweep
  exact foldl_checked_eq user2 (fun (i : Nat) => getRelaxedCriteriaChecked (i : Int) user1)
    (fun (i : Nat) => getRelaxedCriteria (i : Int) user1) (List.range (n + 1))
    (fun i hi => getRelaxedCriteriaChecked_eq (i : Int) user1 (Int.natCast_nonneg i)
      (by rw [List.mem_range] at hi; omega)) false

/-- Claim C10: getRelaxedCriteria is total and its default branch returns the
level-0 criteria; moreover that branch is unreachable from canUsersMatch: the
call-tracking variant never returns none, whatever the level arguments, and
agrees with canUsersMatch everywhere. -/
theorem relaxed_criteria_total_and_guarded :
    (∀ (relaxationLevel : Int) (u : UserData),
      relaxationLevel < 0 ∨ 2 < relaxationLevel →
      getRelaxedCriteria relaxationLevel u = getRelaxedCriteria 0 u) ∧
    (∀ (user1 user2 : UserData) (relaxationLevel1 relaxationLevel2 : Int),
      canUsersMatchChecked user1 user2 relaxationLevel1 relaxationLevel2 =
        some (canUsersMatch user1 user2 relaxationLevel1 relaxationLevel2)) := by
  constructor
  · intro lvl u hl
    unfold getRelaxedCriteria
    rw [if_neg (by omega), if_neg (by omega), if_neg (by omega), if_pos rfl]
  · intro user1 user2 l1 l2
    unfold canUsersMatchChecked canUsersMatch
    by_cases hg1 : l1 < 0 ∨ 2 < l1
    · rw [if_pos hg1, if_pos hg1]
    · have hds := dirSweepChecked_eq user1 user2 l1.toNat (by omega)
      simp only [if_neg hg1, hds]
      by_cases hg2 : l2 < 0 ∨ 2 < l2
      · simp only [if_pos hg2]
      · simp only [if_neg hg2]
        exact foldl_checked_eq user1 (fun _ => getRelaxedCriteriaChecked l2 user2)
          (fun _ => getRelaxedCriteria l2 user2) (List.range (l2.toNat + 1))
          (fun i _ => getRelaxedCriteriaChecked_eq l2 user2 (by omega) (by omega))
          (dirSweep user1 user2 l1.toNat)

/-- Closed witness for claim C10 at the out-of-range level 5. -/
theorem relaxed_criteria_total_and_guarded_witness :
    getRelaxedCriteria 5 userA = getRelaxedCriteria 0 userA ∧
    canUsersMatchChecked userA userB 0 5 = some (canUsersMatch userA userB 0 5) :=
  ⟨relaxed_criteria_total_and_guarded.1 5 userA (by decide),
    relaxed_criteria_total_and_guarded.2 userA userB 0 5⟩

end MatchWorker
